import Mathlib

/-!
Shallow embedding of the chip-n-claw repository (a Rust CHIP-8 interpreter).

Conventions of the embedding:
* Rust machine integers (`u8`, `u16`, `usize`) are embedded as `Nat`, with an
  explicit `% 256` / `% 65536` wherever the Rust operation wraps.  Arithmetic
  on `u8`/`u16` is modelled with wraparound semantics (the behaviour of the
  release profile, and the behaviour the repository's own documentation
  ascribes to the wrapping opcodes).
* Rust code that diverges — `todo!()` bodies, `unimplemented!()`, explicit
  "OpCode does not exist!" aborts, failed bounds checks on array/vector
  indexing, overflowing `Stack::push`, and `process::exit` — is modelled as
  `none` in an `Option`-valued result.
* Fixed-size Rust arrays (`[u8; 16]`, `[u16; 16]`, `[u8; 4096]`,
  `[u8; 64*32]`) are embedded as `List Nat` of the corresponding length;
  reads are `List.getD _ _ 0` (every read performed by the implemented
  opcodes is in bounds: register indices are 4-bit fields) and writes are
  `List.set`.
-/

/-! ### src/architecture/stack.rs -/

/-- `STACK_SIZE` from src/architecture/stack.rs. -/
def STACK_SIZE : Nat := 16

/-- The `Stack` struct of src/architecture/stack.rs: a `[u16; 16]` storage
array and a stack pointer (`usize`). -/
structure Stack where
  memory : List Nat
  sp : Nat
deriving DecidableEq

/-- `Stack::new`: all-zero storage, stack pointer 0. -/
def Stack.new : Stack :=
  { memory := List.replicate STACK_SIZE 0, sp := 0 }

/-- `Stack::push`: if `sp < STACK_SIZE` write `value` at index `sp` and
increment `sp`; otherwise the Rust code aborts ("Stack overflow!"),
modelled as `none`. -/
def Stack.push (s : Stack) (value : Nat) : Option Stack :=
  if s.sp < STACK_SIZE then
    some { memory := s.memory.set s.sp value, sp := s.sp + 1 }
  else
    none

/-- `Stack::pop`: if `sp > 0` decrement `sp`, read the value at the new `sp`,
zero that slot and return the value; otherwise return `None` (underflow).
The read `memory[sp]` is in bounds whenever `sp ≤ 16` (true of every state
the program can construct, see the reachability invariant below). -/
def Stack.pop (s : Stack) : Option (Nat × Stack) :=
  if s.sp > 0 then
    some (s.memory.getD (s.sp - 1) 0,
      { memory := s.memory.set (s.sp - 1) 0, sp := s.sp - 1 })
  else
    none

/-- Iterated `Stack::push` over a list of addresses, propagating overflow. -/
def Stack.pushAll (s : Stack) : List Nat → Option Stack
  | [] => some s
  | a :: rest =>
    match s.push a with
    | none => none
    | some s' => s'.pushAll rest

/-! ### src/architecture/utils.rs -/

/-- Marker type for the `Hex` utility of src/architecture/utils.rs. -/
structure Hex where

/-- `Hex::swap_hex_digits` exactly as written in the source.  Note the Rust
operator precedence: `&` binds tighter than `^`, so the mask `& 0xF` applies
only to `num >> (4 * j)`.  The `u16` left shifts discard high bits, hence
the `% 65536`. -/
def Hex.swap_hex_digits (num i j : Nat) : Nat :=
  let temp : Nat := (num >>> (4 * i)) ^^^ ((num >>> (4 * j)) &&& 0xF)
  (num ^^^ ((temp <<< (4 * i)) % 65536)) ^^^ ((temp <<< (4 * j)) % 65536)

/-! ### src/architecture.rs -/

/-- `WIDTH` from src/architecture.rs. -/
def WIDTH : Nat := 64

/-- `HEIGHT` from src/architecture.rs. -/
def HEIGHT : Nat := 32

/-- `RAM_SIZE` from src/architecture.rs. -/
def RAM_SIZE : Nat := 0x1000

/-- The `Architecture` struct of src/architecture.rs. -/
structure Architecture where
  ram : List Nat
  stack : Stack
  display : List Nat
  v : List Nat
  i : Nat
  pc : Nat
  dt : Nat
  st : Nat
deriving DecidableEq

/-- `Architecture::new`: everything zeroed. -/
def Architecture.new : Architecture :=
  { ram := List.replicate RAM_SIZE 0
    stack := Stack.new
    display := List.replicate (WIDTH * HEIGHT) 0
    v := List.replicate 16 0
    i := 0
    pc := 0
    dt := 0
    st := 0 }

namespace Architecture

/-- `00E0` (`Architecture::clear`): zero the display. -/
def clear (a : Architecture) : Architecture :=
  { a with display := List.replicate (64 * 32) 0 }

/-- `1nnn` (`Architecture::jp`): `pc = instruction & 0xFFF`. -/
def jp (a : Architecture) (instruction : Nat) : Architecture :=
  { a with pc := instruction &&& 0xFFF }

/-- `2nnn` (`Architecture::call`): the source first does `self.stack.sp += 1`
directly on the public field, then calls `Stack::push` (which writes at the
already-incremented index and increments again, or aborts when full), then
sets `pc = instruction & 0xFFF`. -/
def call (a : Architecture) (instruction : Nat) : Option Architecture :=
  let s1 : Stack := { a.stack with sp := a.stack.sp + 1 }
  match s1.push a.pc with
  | none => none
  | some s2 => some { a with stack := s2, pc := instruction &&& 0xFFF }

/-- `3xkk` (`Architecture::s_e_byte`): skip (pc += 2) if `Vx == kk`. -/
def s_e_byte (a : Architecture) (instruction : Nat) : Architecture :=
  let x := (instruction &&& 0x0F00) >>> (2 * 4)
  let kk := instruction &&& 0x00FF
  if a.v.getD x 0 = kk then { a with pc := (a.pc + 2) % 65536 } else a

/-- `4xkk` (`Architecture::s_n_e_byte`): skip if `Vx != kk`. -/
def s_n_e_byte (a : Architecture) (instruction : Nat) : Architecture :=
  let x := (instruction &&& 0x0F00) >>> (2 * 4)
  let kk := instruction &&& 0x00FF
  if a.v.getD x 0 ≠ kk then { a with pc := (a.pc + 2) % 65536 } else a

/-- `5xy0` (`Architecture::s_e_register`): aborts ("OpCode does not exist!")
when the low nibble is nonzero, else skip if `Vx == Vy`. -/
def s_e_register (a : Architecture) (instruction : Nat) : Option Architecture :=
  if instruction &&& 0xF ≠ 0x0 then none
  else
    let x := (instruction &&& 0x0F00) >>> (2 * 4)
    let y := (instruction &&& 0x00F0) >>> (1 * 4)
    if a.v.getD x 0 = a.v.getD y 0 then some { a with pc := (a.pc + 2) % 65536 }
    else some a

/-- `6xkk` (`Architecture::load_byte`): `Vx = kk`. -/
def load_byte (a : Architecture) (instruction : Nat) : Architecture :=
  let x := (instruction &&& 0x0F00) >>> (2 * 4)
  let kk := instruction &&& 0x00FF
  { a with v := a.v.set x kk }

/-- `7xkk` (`Architecture::add_byte`): `Vx += kk`, a `u8` add (wraps). -/
def add_byte (a : Architecture) (instruction : Nat) : Architecture :=
  let x := (instruction &&& 0x0F00) >>> (2 * 4)
  let kk := instruction &&& 0x00FF
  { a with v := a.v.set x ((a.v.getD x 0 + kk) % 256) }

/-- `8xy0` (`Architecture::ld`): `Vx = Vy`. -/
def ld (a : Architecture) (instruction : Nat) : Architecture :=
  let x := (instruction &&& 0x0F00) >>> (2 * 4)
  let y := (instruction &&& 0x00F0) >>> (1 * 4)
  { a with v := a.v.set x (a.v.getD y 0) }

/-- `8xy1` (`Architecture::or`). -/
def or (a : Architecture) (instruction : Nat) : Architecture :=
  let x := (instruction &&& 0x0F00) >>> (2 * 4)
  let y := (instruction &&& 0x00F0) >>> (1 * 4)
  { a with v := a.v.set x (a.v.getD x 0 ||| a.v.getD y 0) }

/-- `8xy2` (`Architecture::and`). -/
def and (a : Architecture) (instruction : Nat) : Architecture :=
  let x := (instruction &&& 0x0F00) >>> (2 * 4)
  let y := (instruction &&& 0x00F0) >>> (1 * 4)
  { a with v := a.v.set x (a.v.getD x 0 &&& a.v.getD y 0) }

/-- `8xy3` (`Architecture::xor`). -/
def xor (a : Architecture) (instruction : Nat) : Architecture :=
  let x := (instruction &&& 0x0F00) >>> (2 * 4)
  let y := (instruction &&& 0x00F0) >>> (1 * 4)
  { a with v := a.v.set x (a.v.getD x 0 ^^^ a.v.getD y 0) }

/-- `8xy4` (`Architecture::add`) exactly as written: on overflow the stored
byte is `sum >> 4` (not the low byte), and `v[0xF]` is set to `1` in *both*
branches of the `if`.  (`try_into().unwrap()` cannot fail on byte-valued
registers: `sum ≤ 510`, so `sum >> 4 ≤ 31`.) -/
def add (a : Architecture) (instruction : Nat) : Architecture :=
  let x := (instruction &&& 0x0F00) >>> (2 * 4)
  let y := (instruction &&& 0x00F0) >>> (1 * 4)
  let sum := a.v.getD x 0 + a.v.getD y 0
  if sum > 0x0FF then
    { a with v := (a.v.set x (sum >>> (1 * 4))).set 0xF 1 }
  else
    { a with v := (a.v.set x sum).set 0xF 1 }

/-- `8xy5` (`Architecture::sub`) exactly as written: `v[0xF]` is written
first (strict comparison `v[x] > v[y]`), and the operands of the wrapping
`u8` subtraction are read *after* that write. -/
def sub (a : Architecture) (instruction : Nat) : Architecture :=
  let x := (instruction &&& 0x0F00) >>> (2 * 4)
  let y := (instruction &&& 0x00F0) >>> (1 * 4)
  let v1 := a.v.set 0xF (if a.v.getD x 0 > a.v.getD y 0 then 1 else 0)
  let subs := (v1.getD x 0 + 256 - v1.getD y 0) % 256
  { a with v := v1.set x subs }

/-- `8xy6` (`Architecture::shr`): `v[0xF] = v[x] & 1` first, then
`v[x] >>= 1` (reading the possibly-updated `v[x]`). -/
def shr (a : Architecture) (instruction : Nat) : Architecture :=
  let x := (instruction &&& 0x0F00) >>> (2 * 4)
  let v1 := a.v.set 0xF (a.v.getD x 0 &&& 0x1)
  { a with v := v1.set x (v1.getD x 0 >>> 1) }

/-- `8xy7` (`Architecture::subn`): delegates to `sub` on
`Hex::swap_hex_digits(instruction, 1, 2)`. -/
def subn (a : Architecture) (instruction : Nat) : Architecture :=
  a.sub (Hex.swap_hex_digits instruction 1 2)

/-- `8xyE` (`Architecture::shl`): `v[0xF] = v[x] >> 7` first, then
`v[x] <<= 1` (a `u8` shift, wraps). -/
def shl (a : Architecture) (instruction : Nat) : Architecture :=
  let x := (instruction &&& 0x0F00) >>> (2 * 4)
  let v1 := a.v.set 0xF (a.v.getD x 0 >>> 7)
  { a with v := v1.set x ((v1.getD x 0 <<< 1) % 256) }

/-- `9xy0` (`Architecture::s_n_e`): skip if `Vx != Vy`.  Note: unlike
`s_e_register`, the source performs *no* check on the low nibble. -/
def s_n_e (a : Architecture) (instruction : Nat) : Architecture :=
  let x := (instruction &&& 0x0F00) >>> (2 * 4)
  let y := (instruction &&& 0x00F0) >>> (1 * 4)
  if a.v.getD x 0 ≠ a.v.getD y 0 then { a with pc := (a.pc + 2) % 65536 } else a

/-- The dispatch `match` inside `Architecture::execute`.  Handlers whose Rust
bodies are `todo!()` (`ret`, `ld_i`, `jp_v0`, `rnd`, `drw`, `skp`, `sknp`,
and all `Fx..` handlers) and every "OpCode does not exist!" abort are
modelled as `none`. -/
def dispatch (a : Architecture) (instruction : Nat) : Option Architecture :=
  if instruction = 0x00E0 then some a.clear
  else if instruction = 0x00EE then none
  else if 0x1000 ≤ instruction ∧ instruction ≤ 0x1FFF then some (a.jp instruction)
  else if 0x2000 ≤ instruction ∧ instruction ≤ 0x2FFF then a.call instruction
  else if 0x3000 ≤ instruction ∧ instruction ≤ 0x3FFF then some (a.s_e_byte instruction)
  else if 0x4000 ≤ instruction ∧ instruction ≤ 0x4FFF then some (a.s_n_e_byte instruction)
  else if 0x5000 ≤ instruction ∧ instruction ≤ 0x5FFF then a.s_e_register instruction
  else if 0x6000 ≤ instruction ∧ instruction ≤ 0x6FFF then some (a.load_byte instruction)
  else if 0x7000 ≤ instruction ∧ instruction ≤ 0x7FFF then some (a.add_byte instruction)
  else if 0x8000 ≤ instruction ∧ instruction ≤ 0x8FFF then
    match instruction &&& 0xF with
    | 0x0 => some (a.ld instruction)
    | 0x1 => some (a.or instruction)
    | 0x2 => some (a.and instruction)
    | 0x3 => some (a.xor instruction)
    | 0x4 => some (a.add instruction)
    | 0x5 => some (a.sub instruction)
    | 0x6 => some (a.shr instruction)
    | 0x7 => some (a.subn instruction)
    | 0xE => some (a.shl instruction)
    | _ => none
  else if 0x9000 ≤ instruction ∧ instruction ≤ 0x9FFF then some (a.s_n_e instruction)
  else if 0xA000 ≤ instruction ∧ instruction ≤ 0xAFFF then none
  else if 0xB000 ≤ instruction ∧ instruction ≤ 0xBFFF then none
  else if 0xC000 ≤ instruction ∧ instruction ≤ 0xCFFF then none
  else if 0xD000 ≤ instruction ∧ instruction ≤ 0xDFFF then none
  else if 0xE000 ≤ instruction ∧ instruction ≤ 0xEFFF then none
  else if 0xF000 ≤ instruction ∧ instruction ≤ 0xFFFF then none
  else none

/-- `Architecture::execute`: fetch `rom[pc]` (a `Vec<u16>` indexed by `pc`;
out of bounds aborts), dispatch, then unconditionally `self.pc += 1`. -/
def execute (a : Architecture) (rom : List Nat) : Option Architecture :=
  match rom[a.pc]? with
  | none => none
  | some instruction =>
    (a.dispatch instruction).map fun a' => { a' with pc := (a'.pc + 1) % 65536 }

end Architecture

/-! ### src/main.rs

The engine in src/main.rs has its own `Architecture` struct (no `ram`, no
`stack` field) and its own private `Stack` struct whose definition is
byte-for-byte the one in src/architecture/stack.rs, so the `Stack` type
above is reused for it.  Its `execute` is a free function receiving the
`Stack` and the register array `v` *by value* (both are `Copy`), so their
mutations never reach the caller; `arch` is received by `&mut`. -/

namespace Main

/-- The `Architecture` struct of src/main.rs. -/
structure Architecture where
  v : List Nat
  display : List Nat
  i : Nat
  pc : Nat
  dt : Nat
  st : Nat
deriving DecidableEq

/-- `Architecture::new` of src/main.rs. -/
def Architecture.new : Architecture :=
  { v := List.replicate 16 0
    display := List.replicate (WIDTH * HEIGHT) 0
    i := 0
    pc := 0
    dt := 0
    st := 0 }

namespace OpCodes

/-- `OpCodes::cls`: called as `cls(&mut arch.display)`; zeroes the display. -/
def cls (arch : Architecture) : Architecture :=
  { arch with display := List.replicate (64 * 32) 0 }

/-- `OpCodes::jp`: `registers.pc = nnn`. -/
def jp (registers : Architecture) (nnn : Nat) : Architecture :=
  { registers with pc := nnn }

/-- `OpCodes::call`: `stack` arrives by value, so its mutations are local,
but the `Stack::push` abort on overflow still escapes (modelled `none`);
`registers.pc = nnn` does reach the caller. -/
def call (registers : Architecture) (stack : Stack) (nnn : Nat) :
    Option Architecture :=
  let s1 : Stack := { stack with sp := stack.sp + 1 }
  match s1.push registers.pc with
  | none => none
  | some _ => some { registers with pc := nnn }

/-- `OpCodes::load_byte`: `v` arrives by value (`mut v: [u8; 16]`), so the
store `v[x] = kk` mutates only the local copy and is dropped; `registers`
is not touched at all. -/
def load_byte (v : List Nat) (registers : Architecture) (x kk : Nat) :
    Architecture :=
  let _ := v.set x kk
  registers

end OpCodes

/-- The free function `execute` of src/main.rs: dispatch on the instruction
(arms for `00E0`, `1nnn`, `2nnn`, `6xkk`, `0xDEAD`; everything else aborts
with "OpCode does not exist!"), then `arch.pc += 1`.  `0xDEAD` calls
`process::exit(0)`, modelled as `none`. -/
def execute (instruction : Nat) (arch : Architecture) (stack : Stack)
    (v : List Nat) : Option Architecture :=
  let dispatched : Option Architecture :=
    if instruction = 0x00E0 then some (OpCodes.cls arch)
    else if 0x1000 ≤ instruction ∧ instruction ≤ 0x1FFF then
      some (OpCodes.jp arch (instruction % 0x1000))
    else if 0x2000 ≤ instruction ∧ instruction ≤ 0x2FFF then
      OpCodes.call arch stack (instruction % 0x1000)
    else if 0x6000 ≤ instruction ∧ instruction ≤ 0x6FFF then
      some (OpCodes.load_byte v arch ((instruction &&& 0x0F00) >>> 8)
        (instruction &&& 0x00FF))
    else if instruction = 0xDEAD then none
    else none
  dispatched.map fun a => { a with pc := (a.pc + 1) % 65536 }

end Main

/-! ### Reachable stack states and concrete machine states used in theorems -/

/-- Stack states reachable from `Stack::new` by `push`/`pop` calls that
return normally (no overflow abort, no underflow `None`). -/
inductive Stack.Reachable : Stack → Prop
  | new : Stack.Reachable Stack.new
  | push (s : Stack) (v : Nat) (s' : Stack) :
      Stack.Reachable s → Stack.push s v = some s' → Stack.Reachable s'
  | pop (s : Stack) (r : Nat) (s' : Stack) :
      Stack.Reachable s → Stack.pop s = some (r, s') → Stack.Reachable s'

/-- State with `V0 = 0x01`, `V1 = 0x01`. -/
def archAddLow : Architecture :=
  { Architecture.new with v := ((List.replicate 16 0).set 0 0x01).set 1 0x01 }

/-- State with `V0 = 0xFF`, `V1 = 0x01`. -/
def archAddHigh : Architecture :=
  { Architecture.new with v := ((List.replicate 16 0).set 0 0xFF).set 1 0x01 }

/-- State with `V0 = 0x05`, `V1 = 0x05`. -/
def archSubEq : Architecture :=
  { Architecture.new with v := ((List.replicate 16 0).set 0 0x05).set 1 0x05 }

/-- State with `V0 = 0x0A`, `V1 = 0x05`. -/
def archSub : Architecture :=
  { Architecture.new with v := ((List.replicate 16 0).set 0 0x0A).set 1 0x05 }

/-- State with `V0 = 10` and `VF = 3` (flag register as the `y` operand). -/
def archSubF : Architecture :=
  { Architecture.new with v := ((List.replicate 16 0).set 0 10).set 15 3 }

/-- State with `VF = 10` and `V1 = 3` (flag register as the `x` operand). -/
def archSubX : Architecture :=
  { Architecture.new with v := ((List.replicate 16 0).set 1 3).set 15 10 }

/-- State with `V0 = 0`, `V1 = 1` (distinct registers for the skip test). -/
def archSne : Architecture :=
  { Architecture.new with v := (List.replicate 16 0).set 1 1 }

/-- Fresh machine whose program counter sits at word index 3. -/
def archCall : Architecture :=
  { Architecture.new with pc := 3 }

/-- State with `V1 = 10`, `V2 = 30`, `V3 = 7`. -/
def archSubn : Architecture :=
  { Architecture.new with
    v := (((List.replicate 16 0).set 1 10).set 2 30).set 3 7 }

/-! ### Shared list-access lemmas -/

theorem getD_set_self (l : List Nat) (i v : Nat) (h : i < l.length) :
    (l.set i v).getD i 0 = v := by
  simp [List.getD_eq_getElem?_getD, List.getElem?_set_eq_of_lt _ h]

theorem getD_set_ne (l : List Nat) (i j v : Nat) (h : i ≠ j) :
    (l.set i v).getD j 0 = l.getD j 0 := by
  simp [List.getD_eq_getElem?_getD, List.getElem?_set_ne h]

theorem getD_set_zero (l : List Nat) (i : Nat) : (l.set i 0).getD i 0 = 0 := by
  by_cases h : i < l.length
  · exact getD_set_self l i 0 h
  · have hle : (l.set i 0).length ≤ i := by
      rw [List.length_set]; omega
    simp [List.getD_eq_getElem?_getD, List.getElem?_eq_none hle]

theorem x_field_lt_16 (n : Nat) : (n &&& 0x0F00) >>> (2 * 4) < 16 := by
  have h1 : n &&& 0x0F00 ≤ 0x0F00 := Nat.and_le_right
  have h2 : (n &&& 0x0F00) >>> (2 * 4) ≤ 0x0F00 >>> (2 * 4) := by
    simp only [Nat.shiftRight_eq_div_pow]
    exact Nat.div_le_div_right h1
  have h3 : (0x0F00 : Nat) >>> (2 * 4) = 15 := by decide
  omega

theorem y_field_lt_16 (n : Nat) : (n &&& 0x00F0) >>> (1 * 4) < 16 := by
  have h1 : n &&& 0x00F0 ≤ 0x00F0 := Nat.and_le_right
  have h2 : (n &&& 0x00F0) >>> (1 * 4) ≤ 0x00F0 >>> (1 * 4) := by
    simp only [Nat.shiftRight_eq_div_pow]
    exact Nat.div_le_div_right h1
  have h3 : (0x00F0 : Nat) >>> (1 * 4) = 15 := by decide
  omega

/-! ### Claim theorems -/

/-- C1: the claim says a step executing `1nnn` leaves `program_counter = nnn`
exactly, and every opcode that does not set the program counter advances it
by exactly 2.  Evaluating `Architecture::execute` refutes both: the engine
unconditionally runs `self.pc += 1` after dispatch, so a `1nnn` step ends
with `pc = nnn + 1` (here `0x1005` yields `pc = 6`, not `5`), and a
non-control-flow opcode (`0x6012`) advances the word-indexed `pc` by 1,
not 2. -/
theorem pc_advance_bug :
    (Architecture.new.execute [0x1005]).map (fun a => a.pc) = some 6 ∧
    (Architecture.new.execute [0x6012]).map (fun a => a.pc) = some 1 := by
  exact ⟨by decide, by decide⟩

/-- C2: the claim says `8xy4` sets `VF = 0` when the sum does not exceed 255
and stores `sum mod 256` on overflow.  Evaluating `Architecture::add`
refutes both: with `V0 = 0x01, V1 = 0x01` the instruction `0x8014` yields
`V0 = 0x02` but `VF = 1` (the claim requires `VF = 0`), and with
`V0 = 0xFF, V1 = 0x01` it yields `V0 = 0x10` (`sum >> 4`, not `sum mod 256
= 0x00`) with `VF = 1`. -/
theorem add_carry_bug :
    (archAddLow.execute [0x8014]).map (fun a => (a.v.getD 0 0, a.v.getD 15 0))
      = some (0x02, 1) ∧
    (archAddHigh.execute [0x8014]).map (fun a => (a.v.getD 0 0, a.v.getD 15 0))
      = some (0x10, 1) := by
  exact ⟨by decide, by decide⟩

/-- C3 counterexample: the claim fails on the code in three distinct ways,
one for each part the amendment changes.  (i) Flag comparison: the claim says
`8xy5` sets `VF = 1` whenever `Vx >= Vy`, but with `V0 = V1 = 0x05`,
instruction `0x8015` leaves `VF = 0` (the source compares with strict `>`).
(ii) `y = 0xF`: the source reads the subtraction operands *after* writing
`VF`, so with `V0 = 10, VF = 3`, instruction `0x80F5` yields `V0 = 9`
(`10` minus the freshly written flag `1`), not `(10 - 3) mod 256 = 7`.
(iii) `x = 0xF`: with `VF = 10, V1 = 3`, instruction `0x8F15` leaves the
flag register at `(1 - 3) mod 256 = 254` (the difference of the fresh flag
and `V1` overwrites the flag), not `(10 - 3) mod 256 = 7`. -/
theorem sub_counterexample :
    ((archSubEq.execute [0x8015]).map (fun a => a.v.getD 15 0) = some 0 ∧
      (archSubEq.execute [0x8015]).map (fun a => a.v.getD 15 0) ≠ some 1) ∧
    ((archSubF.execute [0x80F5]).map (fun a => (a.v.getD 0 0, a.v.getD 15 0))
        = some (9, 1) ∧
      (archSubF.execute [0x80F5]).map (fun a => a.v.getD 0 0) ≠ some 7) ∧
    ((archSubX.execute [0x8F15]).map (fun a => a.v.getD 15 0) = some 254 ∧
      (archSubX.execute [0x8F15]).map (fun a => a.v.getD 15 0) ≠ some 7) := by
  exact ⟨⟨by decide, by decide⟩, ⟨by decide, by decide⟩, ⟨by decide, by decide⟩⟩

/-- C4: the claim says every word matching no defined opcode template —
including any `9xyN` with `N ≠ 0` — produces a decode fault and is never
executed as a defined opcode.  Evaluating the engine refutes this: `0x9011`
(low nibble 1) is dispatched to the `9xy0` handler with no nibble check and
executes as SNE (with `V0 ≠ V1` it skips: `pc` ends at 3), while `0xFFFF`
does fault as the claim says. -/
theorem sne_nibble_bug :
    (archSne.execute [0x9011]).map (fun a => a.pc) = some 3 ∧
    (archSne.execute [0x9011]).isSome = true ∧
    Architecture.new.execute [0xFFFF] = none := by
  exact ⟨by decide, by decide, by decide⟩

/-- C5: the claim says `2nnn` grows the stack by exactly one entry holding
the address of the instruction *after* the call, and that `2nnn` followed by
`00EE` restores that address.  Evaluating the engine refutes it: from
`pc = 3`, instruction `0x2005` leaves `sp = 2` (the handler bumps `sp`
itself and `Stack::push` bumps it again), slot 0 still 0, slot 1 holding 3
(the address *of* the `2nnn`, not of its successor), and `pc = 6`
(`nnn + 1`); and `00EE` (`Architecture::ret`) is `todo!()`, so the
return step aborts instead of restoring anything. -/
theorem call_ret_bug :
    (archCall.execute [0x0000, 0x0000, 0x0000, 0x2005]).map
      (fun a => (a.stack.sp, a.stack.memory.getD 0 0, a.stack.memory.getD 1 0, a.pc))
      = some (2, 0, 3, 6) ∧
    Architecture.new.execute [0x00EE] = none := by
  exact ⟨by decide, by decide⟩

/-- C7: the claim says `8xy7` stores `(Vy - Vx) mod 256` into `Vx` and
leaves every other register unchanged.  Evaluating the engine refutes it:
`Hex::swap_hex_digits` masks only one operand (Rust `&` binds tighter than
`^`), so for `0x8127` the swapped word is `0x1317` and `Architecture::sub`
runs with `x = 3, y = 1`: starting from `V1 = 10, V2 = 30, V3 = 7`, the step
leaves `V1 = 10` (the claim requires `V1 = (V2 - V1) mod 256 = 20`) and
clobbers `V3` to `(V3 - V1) mod 256 = 253`, with `VF = 0`. -/
theorem subn_swap_bug :
    Hex.swap_hex_digits 0x8127 1 2 = 0x1317 ∧
    (archSubn.execute [0x8127]).map
      (fun a => (a.v.getD 1 0, a.v.getD 2 0, a.v.getD 3 0, a.v.getD 15 0))
      = some (10, 30, 253, 0) := by
  exact ⟨by decide, by decide⟩

/-- C3 (amended): executing `8xy5` never faults (`dispatch` returns the
result of `Architecture::sub`) and leaves every register other than `Vx`
and `VF` unchanged.  The handler first sets `VF` to 1 if `Vx > Vy`
*strictly* and to 0 otherwise (so `VF = 0` when `Vx = Vy`), then stores a
wrapping difference whose operands are re-read after that write: when
neither `x` nor `y` is `0xF`, `Vx = (Vx - Vy) mod 256` exactly as claimed;
when `y = 0xF`, the subtrahend is the freshly written flag, so
`Vx = (Vx - flag) mod 256`; when `x = 0xF` (and `y` is not), the flag
register ends at `(flag - Vy) mod 256`; when `x = y = 0xF` it ends at 0.
Both concrete examples of the original claim satisfy this
(`Vx=0x05, Vy=0x0A ↦ Vx=0xFB, VF=0`; `Vx=0x0A, Vy=0x05 ↦ Vx=0x05,
VF=1`). -/
theorem sub_semantics (instruction : Nat) (a : Architecture) (x y : Nat)
    (hx : (instruction &&& 0x0F00) >>> (2 * 4) = x)
    (hy : (instruction &&& 0x00F0) >>> (1 * 4) = y)
    (hlen : a.v.length = 16)
    (hvx : a.v.getD x 0 < 256) (hvy : a.v.getD y 0 < 256)
    (hop : 0x8000 ≤ instruction ∧ instruction ≤ 0x8FFF ∧
      instruction &&& 0xF = 5) :
    a.dispatch instruction = some (a.sub instruction) ∧
    (∀ j, j ≠ x → j ≠ 15 →
      (a.sub instruction).v.getD j 0 = a.v.getD j 0) ∧
    (x ≠ 15 → y ≠ 15 →
      (a.sub instruction).v.getD 15 0
        = (if a.v.getD x 0 > a.v.getD y 0 then 1 else 0) ∧
      (a.sub instruction).v.getD x 0
        = (a.v.getD x 0 + 256 - a.v.getD y 0) % 256) ∧
    (x ≠ 15 → y = 15 →
      (a.sub instruction).v.getD 15 0
        = (if a.v.getD x 0 > a.v.getD 15 0 then 1 else 0) ∧
      (a.sub instruction).v.getD x 0
        = (a.v.getD x 0 + 256 -
            (if a.v.getD x 0 > a.v.getD 15 0 then 1 else 0)) % 256) ∧
    (x = 15 → y ≠ 15 →
      (a.sub instruction).v.getD 15 0
        = ((if a.v.getD 15 0 > a.v.getD y 0 then 1 else 0) + 256 -
            a.v.getD y 0) % 256) ∧
    (x = 15 → y = 15 → (a.sub instruction).v.getD 15 0 = 0) := by
  obtain ⟨h8a, h8b, h85⟩ := hop
  have hxlt : x < 16 := hx ▸ x_field_lt_16 instruction
  have c1 : instruction ≠ 0x00E0 := by omega
  have c2 : instruction ≠ 0x00EE := by omega
  have c3 : ¬(0x1000 ≤ instruction ∧ instruction ≤ 0x1FFF) := by omega
  have c4 : ¬(0x2000 ≤ instruction ∧ instruction ≤ 0x2FFF) := by omega
  have c5 : ¬(0x3000 ≤ instruction ∧ instruction ≤ 0x3FFF) := by omega
  have c6 : ¬(0x4000 ≤ instruction ∧ instruction ≤ 0x4FFF) := by omega
  have c7 : ¬(0x5000 ≤ instruction ∧ instruction ≤ 0x5FFF) := by omega
  have c8 : ¬(0x6000 ≤ instruction ∧ instruction ≤ 0x6FFF) := by omega
  have c9 : ¬(0x7000 ≤ instruction ∧ instruction ≤ 0x7FFF) := by omega
  have c10 : 0x8000 ≤ instruction ∧ instruction ≤ 0x8FFF := ⟨h8a, h8b⟩
  refine ⟨?_, ?_, ?_, ?_, ?_, ?_⟩
  · simp [Architecture.dispatch, c1, c2, c3, c4, c5, c6, c7, c8, c9, c10, h85]
  · intro j hjx hj15
    simp only [Architecture.sub, hx, hy]
    rw [getD_set_ne _ x j _ (Ne.symm hjx), getD_set_ne _ 15 j _ (Ne.symm hj15)]
  · intro hx15 hy15
    constructor
    · simp only [Architecture.sub, hx, hy]
      rw [getD_set_ne _ x 15 _ hx15,
        getD_set_self _ 15 _ (by rw [hlen]; omega)]
    · simp only [Architecture.sub, hx, hy]
      rw [getD_set_self _ x _ (by rw [List.length_set, hlen]; exact hxlt),
        getD_set_ne _ 15 x _ (Ne.symm hx15),
        getD_set_ne _ 15 y _ (Ne.symm hy15)]
  · intro hx15 hy15
    subst hy15
    constructor
    · simp only [Architecture.sub, hx, hy]
      rw [getD_set_ne _ x 15 _ hx15,
        getD_set_self _ 15 _ (by rw [hlen]; omega)]
    · simp only [Architecture.sub, hx, hy]
      rw [getD_set_self _ x _ (by rw [List.length_set, hlen]; exact hxlt),
        getD_set_ne _ 15 x _ (Ne.symm hx15),
        getD_set_self _ 15 _ (by rw [hlen]; omega)]
  · intro hx15 hy15
    subst hx15
    simp only [Architecture.sub, hx, hy]
    rw [getD_set_self _ 15 _ (by rw [List.length_set, hlen]; omega),
      getD_set_self _ 15 _ (by rw [hlen]; omega),
      getD_set_ne _ 15 y _ (Ne.symm hy15)]
  · intro hx15 hy15
    subst hx15
    subst hy15
    simp only [Architecture.sub, hx, hy]
    rw [getD_set_self _ 15 _ (by rw [List.length_set, hlen]; omega),
      getD_set_self _ 15 _ (by rw [hlen]; omega)]
    have hgen : ∀ f : Nat, (f + 256 - f) % 256 = 0 := by
      intro f
      omega
    exact hgen _

/-- Witness for `sub_semantics` at the claim's own example `Vx = 0x0A`,
`Vy = 0x05` (instruction `0x8015`, state `archSub`), and at the
flag-operand case `0x80F5` on `archSubF` (`V0 = 10`, `VF = 3`). -/
theorem sub_semantics_witness :
    (archSub.sub 0x8015).v.getD 15 0 = 1 ∧
    (archSub.sub 0x8015).v.getD 0 0 = 5 ∧
    (archSubF.sub 0x80F5).v.getD 0 0 = 9 := by
  have h1 := sub_semantics 0x8015 archSub 0 1 (by decide) (by decide)
    (by decide) (by decide) (by decide) ⟨by decide, by decide, by decide⟩
  have h2 := sub_semantics 0x80F5 archSubF 0 15 (by decide) (by decide)
    (by decide) (by decide) (by decide) ⟨by decide, by decide, by decide⟩
  refine ⟨?_, ?_, ?_⟩
  · rw [(h1.2.2.1 (by decide) (by decide)).1]
    decide
  · rw [(h1.2.2.1 (by decide) (by decide)).2]
    decide
  · rw [(h2.2.2.2.1 (by decide) rfl).2]
    decide

/-- C6: executing `7xkk` is a wrapping add into `Vx` that never faults
(`dispatch` returns `some` of the `Architecture::add_byte` result), changes
no other register (in particular no flag), leaves `pc`, the stack and the
display untouched, and applying it twice with the same `kk` from register
value `v0` yields `(v0 + 2*kk) mod 256`. -/
theorem add_byte_semantics (instruction : Nat) (a : Architecture) (x : Nat)
    (hx : (instruction &&& 0x0F00) >>> (2 * 4) = x)
    (hlen : a.v.length = 16)
    (hop : 0x7000 ≤ instruction ∧ instruction ≤ 0x7FFF) :
    a.dispatch instruction = some (a.add_byte instruction) ∧
    (a.add_byte instruction).v.getD x 0
      = (a.v.getD x 0 + (instruction &&& 0x00FF)) % 256 ∧
    (∀ j, j ≠ x → (a.add_byte instruction).v.getD j 0 = a.v.getD j 0) ∧
    (a.add_byte instruction).pc = a.pc ∧
    (a.add_byte instruction).stack = a.stack ∧
    (a.add_byte instruction).display = a.display ∧
    ((a.add_byte instruction).add_byte instruction).v.getD x 0
      = (a.v.getD x 0 + 2 * (instruction &&& 0x00FF)) % 256 := by
  have hxlt : x < 16 := hx ▸ x_field_lt_16 instruction
  have c1 : instruction ≠ 0x00E0 := by omega
  have c2 : instruction ≠ 0x00EE := by omega
  have c3 : ¬(0x1000 ≤ instruction ∧ instruction ≤ 0x1FFF) := by omega
  have c4 : ¬(0x2000 ≤ instruction ∧ instruction ≤ 0x2FFF) := by omega
  have c5 : ¬(0x3000 ≤ instruction ∧ instruction ≤ 0x3FFF) := by omega
  have c6 : ¬(0x4000 ≤ instruction ∧ instruction ≤ 0x4FFF) := by omega
  have c7 : ¬(0x5000 ≤ instruction ∧ instruction ≤ 0x5FFF) := by omega
  have c8 : ¬(0x6000 ≤ instruction ∧ instruction ≤ 0x6FFF) := by omega
  have c9 : 0x7000 ≤ instruction ∧ instruction ≤ 0x7FFF := hop
  have hfirst : (a.add_byte instruction).v.getD x 0
      = (a.v.getD x 0 + (instruction &&& 0x00FF)) % 256 := by
    simp only [Architecture.add_byte, hx]
    rw [getD_set_self _ x _ (by rw [hlen]; exact hxlt)]
  refine ⟨?_, hfirst, ?_, rfl, rfl, rfl, ?_⟩
  · simp [Architecture.dispatch, c1, c2, c3, c4, c5, c6, c7, c8, c9]
  · intro j hjx
    simp only [Architecture.add_byte, hx]
    rw [getD_set_ne _ x j _ (Ne.symm hjx)]
  · have hsecond : ((a.add_byte instruction).add_byte instruction).v.getD x 0
        = ((a.add_byte instruction).v.getD x 0 + (instruction &&& 0x00FF)) % 256 := by
      simp only [Architecture.add_byte, hx]
      rw [getD_set_self _ x _ (by simp only [List.length_set]; rw [hlen]; exact hxlt)]
    rw [hsecond, hfirst, Nat.mod_add_mod]
    congr 1
    omega

/-- Witness for `add_byte_semantics`: `7xkk` with `x = 1`, `kk = 0x05` on a
fresh machine, applied once and twice. -/
theorem add_byte_semantics_witness :
    (Architecture.new.add_byte 0x7105).v.getD 1 0 = 5 ∧
    ((Architecture.new.add_byte 0x7105).add_byte 0x7105).v.getD 1 0 = 10 := by
  have h := add_byte_semantics 0x7105 Architecture.new 1 (by decide) (by decide)
    ⟨by decide, by decide⟩
  refine ⟨?_, ?_⟩
  · rw [h.2.1]; decide
  · rw [h.2.2.2.2.2.2]; decide

/-- C8: the `Stack` contract.  `push` appends (writes at `sp`, increments
`sp`) when fewer than 16 entries are present and signals overflow (the
abort, modelled `none`) when 16 are; `pop` on a non-empty stack removes and
returns the top entry, and immediately after a successful `push` of `value`
it returns exactly that `value`; `pop` on an empty stack signals underflow
(`none`); pushing 17 addresses from a fresh stack succeeds 16 times and
signals overflow on the 17th. -/
theorem stack_contract (s : Stack) (value : Nat) (hlen : s.memory.length = 16) :
    (s.sp < 16 → Stack.push s value
      = some { memory := s.memory.set s.sp value, sp := s.sp + 1 }) ∧
    (16 ≤ s.sp → Stack.push s value = none) ∧
    (0 < s.sp → Stack.pop s
      = some (s.memory.getD (s.sp - 1) 0,
          { memory := s.memory.set (s.sp - 1) 0, sp := s.sp - 1 })) ∧
    (s.sp = 0 → Stack.pop s = none) ∧
    (s.sp < 16 → (Stack.push s value).bind Stack.pop
      = some (value,
          { memory := (s.memory.set s.sp value).set s.sp 0, sp := s.sp })) ∧
    (Stack.pushAll Stack.new (List.replicate 16 0x200)).isSome = true ∧
    Stack.pushAll Stack.new (List.replicate 17 0x200) = none := by
  refine ⟨?_, ?_, ?_, ?_, ?_, by decide, by decide⟩
  · intro h
    simp [Stack.push, STACK_SIZE, h]
  · intro h
    have h' : ¬ s.sp < 16 := by omega
    simp [Stack.push, STACK_SIZE, h']
  · intro h
    simp [Stack.pop, h]
  · intro h
    simp [Stack.pop, h]
  · intro h
    have hp : Stack.push s value
        = some { memory := s.memory.set s.sp value, sp := s.sp + 1 } := by
      simp [Stack.push, STACK_SIZE, h]
    have hg : (s.memory.set s.sp value)[s.sp]? = some value :=
      List.getElem?_set_eq_of_lt _ (by rw [hlen]; exact h)
    rw [hp]
    simp [Stack.pop, hg]

/-- Witness for `stack_contract` on a fresh stack and the address `0x123`:
a first push succeeds and appends, and popping the empty stack underflows. -/
theorem stack_contract_witness :
    Stack.push Stack.new 0x123
      = some { memory := (List.replicate 16 0).set 0 0x123, sp := 1 } ∧
    Stack.pop Stack.new = none := by
  have h := stack_contract Stack.new 0x123 (by decide)
  exact ⟨h.1 (by decide), h.2.2.2.1 (by decide)⟩

/-- C9: every stack state reachable from `Stack::new` by successful
`push`/`pop` calls has `sp ≤ 16` and only zeros in the storage slots at or
above `sp`; moreover a successful `push` increments `sp` by exactly 1, and a
successful `pop` decrements `sp` by exactly 1 and zeroes the vacated slot,
so popped return addresses never linger in the storage array. -/
theorem stack_reachable_invariant :
    (∀ s : Stack, Stack.Reachable s →
      s.memory.length = 16 ∧ s.sp ≤ 16 ∧
      ∀ i, s.sp ≤ i → s.memory.getD i 0 = 0) ∧
    (∀ (s : Stack) (v : Nat) (s' : Stack),
      Stack.push s v = some s' → s'.sp = s.sp + 1) ∧
    (∀ (s : Stack) (r : Nat) (s' : Stack),
      Stack.pop s = some (r, s') →
      s.sp = s'.sp + 1 ∧ s'.memory.getD s'.sp 0 = 0) := by
  refine ⟨?_, ?_, ?_⟩
  · intro s hs
    induction hs with
    | new =>
      refine ⟨by simp [Stack.new, STACK_SIZE], by simp [Stack.new], ?_⟩
      intro i _
      simp only [Stack.new, STACK_SIZE, List.getD_eq_getElem?_getD,
        List.getElem?_replicate]
      split <;> rfl
    | push s v s' hr heq ih =>
      obtain ⟨ihlen, ihsp, ihz⟩ := ih
      unfold Stack.push at heq
      by_cases hlt : s.sp < STACK_SIZE
      · rw [if_pos hlt] at heq
        injection heq with heq
        subst heq
        refine ⟨by simp [List.length_set, ihlen], ?_, ?_⟩
        · show s.sp + 1 ≤ 16
          simp only [STACK_SIZE] at hlt
          omega
        · intro i hi
          have hi' : s.sp + 1 ≤ i := hi
          show (s.memory.set s.sp v).getD i 0 = 0
          rw [getD_set_ne _ _ _ _ (by omega)]
          exact ihz i (by omega)
      · rw [if_neg hlt] at heq
        exact absurd heq (by simp)
    | pop s r s' hr heq ih =>
      obtain ⟨ihlen, ihsp, ihz⟩ := ih
      unfold Stack.pop at heq
      by_cases hpos : s.sp > 0
      · rw [if_pos hpos] at heq
        injection heq with heq
        injection heq with h1 h2
        subst h2
        refine ⟨by simp [List.length_set, ihlen],
          by show s.sp - 1 ≤ 16; omega, ?_⟩
        intro i hi
        have hi' : s.sp - 1 ≤ i := hi
        show (s.memory.set (s.sp - 1) 0).getD i 0 = 0
        by_cases hie : i = s.sp - 1
        · subst hie
          exact getD_set_zero _ _
        · rw [getD_set_ne _ _ _ _ (by omega)]
          exact ihz i (by omega)
      · rw [if_neg hpos] at heq
        exact absurd heq (by simp)
  · intro s v s' h
    unfold Stack.push at h
    by_cases hlt : s.sp < STACK_SIZE
    · rw [if_pos hlt] at h
      injection h with h
      subst h
      rfl
    · rw [if_neg hlt] at h
      exact absurd h (by simp)
  · intro s r s' h
    unfold Stack.pop at h
    by_cases hpos : s.sp > 0
    · rw [if_pos hpos] at h
      injection h with h
      injection h with h1 h2
      subst h2
      refine ⟨by show s.sp = s.sp - 1 + 1; omega, getD_set_zero _ _⟩
    · rw [if_neg hpos] at h
      exact absurd h (by simp)

/-- Witness for `stack_reachable_invariant`: the fresh stack is reachable
and satisfies the bound, and the first successful push raises `sp` to 1. -/
theorem stack_reachable_invariant_witness :
    Stack.new.sp ≤ 16 ∧
    ({ memory := (List.replicate 16 0).set 0 7, sp := 1 } : Stack).sp
      = Stack.new.sp + 1 := by
  have h := stack_reachable_invariant
  exact ⟨(h.1 Stack.new Stack.Reachable.new).2.1,
    h.2.1 Stack.new 7 _ (by decide)⟩

/-- C10: in the engine of src/main.rs, a `6xkk` step changes nothing but the
program counter: `OpCodes::load_byte` receives the register array by value,
so its store is invisible to the caller; the step returns the input machine
with only `pc` advanced (`arch.v`, `display`, `i`, `dt`, `st` all equal to
their inputs, and the caller's `v` array untouched). -/
theorem load_byte_frame (instruction : Nat) (arch : Main.Architecture)
    (stack : Stack) (v : List Nat)
    (h1 : 0x6000 ≤ instruction) (h2 : instruction ≤ 0x6FFF) :
    Main.execute instruction arch stack v
      = some { arch with pc := (arch.pc + 1) % 65536 } := by
  have e0 : instruction ≠ 0x00E0 := by omega
  have r1 : ¬(0x1000 ≤ instruction ∧ instruction ≤ 0x1FFF) := by omega
  have r2 : ¬(0x2000 ≤ instruction ∧ instruction ≤ 0x2FFF) := by omega
  have r3 : 0x6000 ≤ instruction ∧ instruction ≤ 0x6FFF := ⟨h1, h2⟩
  simp [Main.execute, Main.OpCodes.load_byte, e0, r1, r2, r3]

/-- Witness for `load_byte_frame`: instruction `0x6012` on a fresh
machine advances `pc` to 1 and changes nothing else. -/
theorem load_byte_frame_witness :
    Main.execute 0x6012 Main.Architecture.new Stack.new (List.replicate 16 0)
      = some { Main.Architecture.new with
          pc := (Main.Architecture.new.pc + 1) % 65536 } :=
  load_byte_frame 0x6012 Main.Architecture.new Stack.new
    (List.replicate 16 0) (by decide) (by decide)
